import Mathlib

/-!
Verification of the docker-fabric core (`dockerfabric/apiclient.py`) against its
specification.  The Python source is shallowly embedded: Python optional values
become `Option`, Python truthiness is modelled explicitly, the Fabric `env`
dictionary becomes an explicit record, and the stateful connection cache and
bootstrap loop become explicit state-passing functions.

Modules `dockerfabric/base.py` (ConnectionDict, get_local_port),
`dockerfabric/socat.py` and `dockerfabric/tunnel.py` are imported by
`apiclient.py` but are not part of the visible source tree; where their
behaviour is needed it is modelled from the specification and marked as such
in the corresponding doc comment.
-/

namespace DockerFabric

/-! ### Python value helpers -/

/-- Python truthiness for an optional integer: `None` and `0` are falsy. -/
def truthyInt : Option Int → Bool
  | none => false
  | some n => n != 0

/-- Python truthiness for an optional string: `None` and `""` are falsy. -/
def truthyStr : Option String → Bool
  | none => false
  | some s => s != ""

/-- Python `a or b` on optional integers: yields `b` whenever `a` is falsy. -/
def pyOrInt (a b : Option Int) : Option Int := if truthyInt a then a else b

/-- Python `a or b` on optional strings: yields `b` whenever `a` is falsy. -/
def pyOrStr (a b : Option String) : Option String := if truthyStr a then a else b

/-- Python `dict.get(key, default)`: the stored value when the key is present,
the default otherwise.  A field of value `some v` models a key bound to `v`,
`none` models an absent key. -/
def envGetD (field dflt : Option Int) : Option Int :=
  match field with
  | some v => some v
  | none => dflt

/-- The ambient Fabric `env` fields read by `DockerFabricClient.__init__` and
`DockerFabricConnections.get_connection` (apiclient.py lines 29, 67-75). -/
structure PyEnv where
  host_string : Option String
  docker_base_url : Option String
  docker_tunnel_remote_port : Option Int
  docker_tunnel_local_port : Option Int
deriving DecidableEq, Repr

/-! ### URL host extraction (apiclient.py lines 77-78)

`p1, __, p2 = url.partition(':')` splits at the FIRST colon; `remote_host =
p2 or p1` then selects `p2` unless it is empty. -/

/-- Embedding of Python `str.partition(':')` on the character list: `none` when
no colon occurs, otherwise `some (before, after)` split at the first colon. -/
def splitFirstColon : List Char → Option (List Char × List Char)
  | [] => none
  | c :: cs =>
    if c = ':' then some ([], cs)
    else (splitFirstColon cs).map (fun p => (c :: p.1, p.2))

/-- `remote_host = p2 or p1` after `p1, __, p2 = url.partition(':')`
(apiclient.py lines 77-78), on the character list. -/
def remoteHostCore (l : List Char) : List Char :=
  match splitFirstColon l with
  | none => l
  | some (p1, p2) => if p2 = [] then p1 else p2

/-- The remote host component extracted from the endpoint URL
(apiclient.py lines 77-78). -/
def remoteHostOf (u : String) : String := String.mk (remoteHostCore u.data)

/-- Splitting at the LAST colon, used only to state the claim that host
extraction splits at the last colon (which the code does not do). -/
def splitLastColon (l : List Char) : Option (List Char × List Char) :=
  (splitFirstColon l.reverse).map (fun p => (p.2.reverse, p.1.reverse))

/-- Host extraction as the specification words it: the text after the LAST
colon when the URL contains one, else the whole field. -/
def remoteHost_claimLast (u : String) : String :=
  match splitLastColon u.data with
  | none => u
  | some p => String.mk p.2

/-- Host extraction described without `partition`: the text after the FIRST
colon when the URL contains one and that text is nonempty; otherwise the text
before the first colon (the whole URL when it has no colon). -/
def remoteHostFirstColonSpec (l : List Char) : List Char :=
  let after := (l.dropWhile (fun c => c ≠ ':')).tail
  if after = [] then l.takeWhile (fun c => c ≠ ':') else after

/-! ### DockerFabricClient.__init__ (apiclient.py lines 66-87)

The embedding records the tunnel acquired (if any), the final connection URL
handed to the superclass constructor, and the hints passed to the port
allocator `get_local_port`.  `get_local_port` itself lives in
`dockerfabric/base.py` (not in the source tree); it is abstracted as a
function argument `alloc`, per the spec an allocator that returns the
requested port if free, else an ephemeral free port.  API version and timeout
resolution (lines 74-75) only feed the delegated superclass constructor and
are not modelled. -/

/-- Embedding of Python `str.startswith` on character lists. -/
def charsStartWith : List Char → List Char → Bool
  | _, [] => true
  | [], _ :: _ => false
  | c :: cs, d :: ds => c = d && charsStartWith cs ds

/-- Embedding of Python `u.startswith(p)`. -/
def strStartsWith (u p : String) : Bool := charsStartWith u.data p.data

/-- A tunnel as keyed in the two registries (apiclient.py lines 80 and 82):
`socat remote_host local_port` for `socat_tunnels[(remote_host, local_port)]`,
`fwd remote_host remote_port "localhost" local_port` for
`local_tunnels[(remote_host, remote_port, 'localhost', local_port)]`. -/
inductive Tunnel where
  | socat : String → Int → Tunnel
  | fwd : String → Int → String → Int → Tunnel
deriving DecidableEq, Repr

/-- Observable outcome of `DockerFabricClient.__init__`. -/
structure InitResult where
  tunnel : Option Tunnel
  conn_url : Option String
  allocHints : List (Option Int)
deriving DecidableEq, Repr

/-- Resolution of `init_local_port` (apiclient.py lines 68-71):
`if not tunnel_local_port: init_local_port =
env.get('docker_tunnel_local_port', remote_port) else: init_local_port =
tunnel_local_port`. -/
def init_local_port_of (tunnel_local_port : Option Int) (e : PyEnv)
    (remote_port : Option Int) : Option Int :=
  if truthyInt tunnel_local_port then tunnel_local_port
  else envGetD e.docker_tunnel_local_port remote_port

/-- Embedding of `DockerFabricClient.__init__` (apiclient.py lines 66-87). -/
def dockerFabricClient_init (e : PyEnv) (base_url : Option String)
    (tunnel_remote_port tunnel_local_port : Option Int)
    (alloc : Option Int → Int) : InitResult :=
  let remote_port := pyOrInt tunnel_remote_port e.docker_tunnel_remote_port
  let ilp := init_local_port_of tunnel_local_port e remote_port
  let local_port := alloc ilp
  let url := pyOrStr base_url e.docker_base_url
  match url, remote_port with
  | some u, some rp =>
    let remote_host := String.mk (remoteHostCore u.data)
    let t :=
      if strStartsWith u "http+unix:" || strStartsWith u "unix:" ||
          strStartsWith u "/" then
        Tunnel.socat remote_host local_port
      else
        Tunnel.fwd remote_host rp "localhost" local_port
    { tunnel := some t
      conn_url := some ("tcp://127.0.0.1:" ++ toString local_port)
      allocHints := [ilp] }
  | u?, _ => { tunnel := none, conn_url := u?, allocHints := [ilp] }

/-! ### Characterisation of the first-colon split -/

theorem splitFirstColon_eq_none {l : List Char} (h : splitFirstColon l = none) :
    l.takeWhile (fun c => c ≠ ':') = l ∧ l.dropWhile (fun c => c ≠ ':') = [] := by
  induction l with
  | nil => simp
  | cons c cs ih =>
    unfold splitFirstColon at h
    by_cases hc : c = ':'
    · simp [hc] at h
    · simp only [if_neg hc, Option.map_eq_none'] at h
      obtain ⟨h1, h2⟩ := ih h
      refine ⟨?_, ?_⟩
      · simpa [hc] using h1
      · simpa [hc] using h2

theorem splitFirstColon_eq_some {l p1 p2 : List Char}
    (h : splitFirstColon l = some (p1, p2)) :
    l.takeWhile (fun c => c ≠ ':') = p1 ∧ (l.dropWhile (fun c => c ≠ ':')).tail = p2 := by
  induction l generalizing p1 p2 with
  | nil => simp [splitFirstColon] at h
  | cons c cs ih =>
    unfold splitFirstColon at h
    by_cases hc : c = ':'
    · simp only [if_pos hc, Option.some.injEq, Prod.mk.injEq] at h
      obtain ⟨h1, h2⟩ := h
      subst h1; subst h2
      simp [hc]
    · simp only [if_neg hc] at h
      cases hs : splitFirstColon cs with
      | none => rw [hs] at h; simp at h
      | some q =>
        rw [hs] at h
        obtain ⟨q1, q2⟩ := q
        simp only [Option.map_some', Option.some.injEq, Prod.mk.injEq] at h
        obtain ⟨h1, h2⟩ := h
        obtain ⟨g1, g2⟩ := ih hs
        subst h1; subst h2
        refine ⟨?_, ?_⟩
        · simpa [hc] using g1
        · simpa [hc] using g2

/-- Claim C7 counterexample: the specification says the remote host component
is the text after the LAST colon, but `url.partition(':')` (apiclient.py line
77) splits at the FIRST colon: on `"tcp://host:2375"` the code extracts
`"//host:2375"`, not `"2375"`. -/
theorem remote_host_last_colon_counterexample :
    remoteHostOf "tcp://host:2375" = "//host:2375" ∧
    remoteHost_claimLast "tcp://host:2375" = "2375" ∧
    remoteHostOf "tcp://host:2375" ≠ remoteHost_claimLast "tcp://host:2375" := by
  refine ⟨by decide, by decide, by decide⟩

/-- Claim C7 (amended): the extracted remote host component is the text after
the FIRST colon when the URL contains one and that text is nonempty; otherwise
it is the text before the first colon (the whole host field when the URL has
no colon). -/
theorem remote_host_after_first_colon (u : String) :
    remoteHostOf u = String.mk (remoteHostFirstColonSpec u.data) := by
  unfold remoteHostOf remoteHostCore remoteHostFirstColonSpec
  cases h : splitFirstColon u.data with
  | none =>
    obtain ⟨h1, h2⟩ := splitFirstColon_eq_none h
    simp only [h2, List.tail_nil, if_pos rfl, h1]
    cases u
    rfl
  | some p =>
    obtain ⟨p1, p2⟩ := p
    obtain ⟨h1, h2⟩ := splitFirstColon_eq_some h
    by_cases hp : p2 = []
    · subst hp
      simp only [ne_eq, decide_not] at h1 h2
      simp [h1, h2]
    · simp only [ne_eq, decide_not] at h1 h2
      simp [h1, h2, hp]

/-- Claim C8 counterexample: with no explicit `tunnel_local_port`,
`env.docker_tunnel_local_port = 5000` and a resolved remote port of `2375`,
the hint passed to the port allocator (apiclient.py lines 68-72) is `5000`,
not the remote port `2375` the claim predicts. -/
theorem local_port_hint_counterexample :
    (dockerFabricClient_init
        { host_string := some "h", docker_base_url := some "tcp://h:2375",
          docker_tunnel_remote_port := none,
          docker_tunnel_local_port := some 5000 }
        none (some 2375) none (fun h => h.getD 0)).allocHints = [some 5000] ∧
    some (5000 : Int) ≠ some (2375 : Int) := by
  refine ⟨by decide, by decide⟩

/-- Claim C8 (amended): the local-port hint passed to the Port Allocator is
the explicit `tunnel_local_port` argument when it is truthy; otherwise the
ambient `env.docker_tunnel_local_port` when that key is present; otherwise the
resolved remote port. -/
def localPortHintSpec (tunnel_local_port envLocal remote_port : Option Int) :
    Option Int :=
  if truthyInt tunnel_local_port then tunnel_local_port
  else if envLocal.isSome then envLocal else remote_port

/-- Claim C8 (amended, proof): `DockerFabricClient.__init__` passes exactly
one hint to the port allocator, and that hint is the explicit argument when
truthy, else the ambient `docker_tunnel_local_port`, else the resolved remote
port. -/
theorem local_port_hint_resolution (e : PyEnv) (base_url : Option String)
    (tunnel_remote_port tunnel_local_port : Option Int)
    (alloc : Option Int → Int) :
    (dockerFabricClient_init e base_url tunnel_remote_port tunnel_local_port
        alloc).allocHints =
      [localPortHintSpec tunnel_local_port e.docker_tunnel_local_port
        (pyOrInt tunnel_remote_port e.docker_tunnel_remote_port)] := by
  have hhint : init_local_port_of tunnel_local_port e
      (pyOrInt tunnel_remote_port e.docker_tunnel_remote_port) =
      localPortHintSpec tunnel_local_port e.docker_tunnel_local_port
        (pyOrInt tunnel_remote_port e.docker_tunnel_remote_port) := by
    unfold init_local_port_of localPortHintSpec envGetD
    cases e.docker_tunnel_local_port <;> simp
  unfold dockerFabricClient_init
  cases hu : pyOrStr base_url e.docker_base_url with
  | none => simpa using hhint
  | some u =>
    cases hp : pyOrInt tunnel_remote_port e.docker_tunnel_remote_port with
    | none => simp only [hp] at hhint ⊢; simpa using hhint
    | some rp => simp only [hp] at hhint ⊢; simpa using hhint

/-- Claim C2: with a resolvable URL and remote port, a unix-socket-style
endpoint (`http+unix:`, `unix:` or a bare path) acquires a socat relay tunnel
keyed by (remote_host, local_port); any other endpoint acquires a forward
tunnel keyed by (remote_host, remote_port, "localhost", local_port); and in
both cases the actual connection target is `tcp://127.0.0.1:{local_port}`
(apiclient.py lines 76-87). -/
theorem tunnel_selection_by_scheme (e : PyEnv) (base_url : Option String)
    (tunnel_remote_port tunnel_local_port : Option Int)
    (alloc : Option Int → Int) (u : String) (rp : Int)
    (hu : pyOrStr base_url e.docker_base_url = some u)
    (hp : pyOrInt tunnel_remote_port e.docker_tunnel_remote_port = some rp) :
    let r := dockerFabricClient_init e base_url tunnel_remote_port
      tunnel_local_port alloc
    let lp := alloc (init_local_port_of tunnel_local_port e (some rp))
    r.conn_url = some ("tcp://127.0.0.1:" ++ toString lp) ∧
    ((strStartsWith u "http+unix:" = true ∨ strStartsWith u "unix:" = true ∨
        strStartsWith u "/" = true) →
      r.tunnel = some (Tunnel.socat (remoteHostOf u) lp)) ∧
    ((strStartsWith u "http+unix:" = false ∧ strStartsWith u "unix:" = false ∧
        strStartsWith u "/" = false) →
      r.tunnel = some (Tunnel.fwd (remoteHostOf u) rp "localhost" lp)) := by
  intro r lp
  have hr : r = dockerFabricClient_init e base_url tunnel_remote_port
      tunnel_local_port alloc := rfl
  unfold dockerFabricClient_init at hr
  simp only [hu, hp] at hr
  by_cases hcond : (strStartsWith u "http+unix:" || strStartsWith u "unix:" ||
      strStartsWith u "/") = true
  · rw [if_pos hcond] at hr
    rw [hr]
    refine ⟨rfl, fun _ => rfl, fun hne => ?_⟩
    obtain ⟨h1, h2, h3⟩ := hne
    rw [h1, h2, h3] at hcond
    simp at hcond
  · rw [if_neg hcond] at hr
    rw [hr]
    refine ⟨rfl, fun hor => ?_, fun _ => rfl⟩
    rcases hor with h | h | h <;> simp [h] at hcond

/-- Claim C2 witness: a concrete unix-socket endpoint with remote port 2375
yields the socat tunnel and the loopback connection target. -/
theorem tunnel_selection_by_scheme_witness :
    (dockerFabricClient_init
        { host_string := some "host1",
          docker_base_url := some "unix:///var/run/docker.sock",
          docker_tunnel_remote_port := some 2375,
          docker_tunnel_local_port := none }
        none none none (fun h => h.getD 9999)).conn_url =
      some "tcp://127.0.0.1:2375" ∧
    (dockerFabricClient_init
        { host_string := some "host1",
          docker_base_url := some "unix:///var/run/docker.sock",
          docker_tunnel_remote_port := some 2375,
          docker_tunnel_local_port := none }
        none none none (fun h => h.getD 9999)).tunnel =
      some (Tunnel.socat "///var/run/docker.sock" 2375) := by
  have h := tunnel_selection_by_scheme
    { host_string := some "host1",
      docker_base_url := some "unix:///var/run/docker.sock",
      docker_tunnel_remote_port := some 2375,
      docker_tunnel_local_port := none }
    none none none (fun h => h.getD 9999) "unix:///var/run/docker.sock" 2375
    rfl rfl
  obtain ⟨h1, h2, _⟩ := h
  refine ⟨h1.trans (by decide), ?_⟩
  have h2' := h2 (Or.inr (Or.inl (by decide)))
  exact h2'.trans (by decide)

/-- Claim C10: `DockerFabricClient.__init__` requests a local port from the
allocator exactly once, unconditionally, before deciding whether a tunnel is
needed (apiclient.py line 72 precedes the check on line 76); when the URL or
the resolved remote port is absent no tunnel is created and the client
connects directly to the original URL, the allocated port unused. -/
theorem local_port_allocated_unconditionally (e : PyEnv)
    (base_url : Option String) (tunnel_remote_port tunnel_local_port : Option Int)
    (alloc : Option Int → Int) :
    let r := dockerFabricClient_init e base_url tunnel_remote_port
      tunnel_local_port alloc
    r.allocHints.length = 1 ∧
    ((pyOrStr base_url e.docker_base_url = none ∨
        pyOrInt tunnel_remote_port e.docker_tunnel_remote_port = none) →
      r.tunnel = none ∧ r.conn_url = pyOrStr base_url e.docker_base_url) := by
  intro r
  have hr : r = dockerFabricClient_init e base_url tunnel_remote_port
      tunnel_local_port alloc := rfl
  unfold dockerFabricClient_init at hr
  cases hu : pyOrStr base_url e.docker_base_url with
  | none =>
    cases hp : pyOrInt tunnel_remote_port e.docker_tunnel_remote_port <;>
      simp only [hu, hp] at hr <;> rw [hr] <;> exact ⟨rfl, fun _ => ⟨rfl, rfl⟩⟩
  | some u =>
    cases hp : pyOrInt tunnel_remote_port e.docker_tunnel_remote_port with
    | none =>
      simp only [hu, hp] at hr
      rw [hr]
      exact ⟨rfl, fun _ => ⟨rfl, rfl⟩⟩
    | some rp =>
      simp only [hu, hp] at hr
      rw [hr]
      refine ⟨rfl, fun hor => ?_⟩
      rcases hor with h | h <;> simp_all

/-- Claim C10 witness: with no remote port resolvable, the allocator is still
invoked once and the client connects directly with no tunnel. -/
theorem local_port_allocated_unconditionally_witness :
    (dockerFabricClient_init
        { host_string := some "host1",
          docker_base_url := some "tcp://h:2375",
          docker_tunnel_remote_port := none,
          docker_tunnel_local_port := none }
        none none none (fun h => h.getD 9999)).allocHints.length = 1 ∧
    (dockerFabricClient_init
        { host_string := some "host1",
          docker_base_url := some "tcp://h:2375",
          docker_tunnel_remote_port := none,
          docker_tunnel_local_port := none }
        none none none (fun h => h.getD 9999)).tunnel = none := by
  have h := local_port_allocated_unconditionally
    { host_string := some "host1",
      docker_base_url := some "tcp://h:2375",
      docker_tunnel_remote_port := none,
      docker_tunnel_local_port := none }
    none none none (fun h => h.getD 9999)
  exact ⟨h.1, (h.2 (Or.inr (by decide))).1⟩

/-! ### Connection cache (DockerFabricConnections, apiclient.py lines 16-33)

`ConnectionDict` lives in `dockerfabric/base.py`, which is not part of the
visible source tree; its `get` operation is modelled from the spec. -/

/-- Cache key: `(env.get('host_string'), env.get('docker_base_url'))`
(apiclient.py line 29). -/
abbrev ConnKey := Option String × Option String

/-- A connection instance: a unique identity drawn from a counter, paired with
the constructor args it was built with.  Distinct ids model distinct Python
object identities. -/
abbrev Conn := Nat × List String

/-- The connection cache state: the entries, the next fresh identity, and a
count of constructor invocations. -/
structure ConnCache where
  entries : List (ConnKey × Conn)
  nextId : Nat
  ctorCalls : Nat
deriving DecidableEq, Repr

/-- Association lookup on the cache entries. -/
def lookupConn (key : ConnKey) : List (ConnKey × Conn) → Option Conn
  | [] => none
  | kv :: rest => if kv.1 = key then some kv.2 else lookupConn key rest

/-- Modelled from the spec: `ConnectionDict.get(key, constructor, *args)`
(`dockerfabric/base.py`, not in the source tree).  If `key` is present the
cached connection is returned unchanged and the constructor args are ignored;
otherwise the constructor is invoked (building a fresh instance from `args`),
the new connection is inserted under `key`, and it is returned. -/
def cacheGet (c : ConnCache) (key : ConnKey) (args : List String) :
    Conn × ConnCache :=
  match lookupConn key c.entries with
  | some conn => (conn, c)
  | none =>
    ((c.nextId, args),
      { entries := (key, (c.nextId, args)) :: c.entries,
        nextId := c.nextId + 1,
        ctorCalls := c.ctorCalls + 1 })

/-- `DockerFabricConnections.get_connection` (apiclient.py lines 20-30):
the key is Fabric's current `env.host_string` paired with
`env.docker_base_url`. -/
def get_connection (e : PyEnv) (c : ConnCache) (args : List String) :
    Conn × ConnCache :=
  cacheGet c (e.host_string, e.docker_base_url) args

/-- The cache a fresh process starts with. -/
def emptyCache : ConnCache := ⟨[], 0, 0⟩

/-- Cache well-formedness: every cached identity is below the counter, and
identities are pairwise distinct. -/
def CacheWF (c : ConnCache) : Prop :=
  (∀ kv ∈ c.entries, kv.2.1 < c.nextId) ∧
  (c.entries.map (fun kv => kv.2.1)).Nodup

theorem lookupConn_mem {key : ConnKey} {l : List (ConnKey × Conn)} {conn : Conn}
    (h : lookupConn key l = some conn) : (key, conn) ∈ l := by
  induction l with
  | nil => simp [lookupConn] at h
  | cons kv rest ih =>
    unfold lookupConn at h
    by_cases hk : kv.1 = key
    · rw [if_pos hk] at h
      obtain ⟨k, v⟩ := kv
      simp only [Option.some.injEq] at h
      subst h
      simp only at hk
      subst hk
      exact List.mem_cons_self _ _
    · rw [if_neg hk] at h
      exact List.mem_cons_of_mem _ (ih h)

theorem cacheGet_hit {c : ConnCache} {key : ConnKey} {conn : Conn}
    (args : List String) (h : lookupConn key c.entries = some conn) :
    cacheGet c key args = (conn, c) := by
  unfold cacheGet; rw [h]

theorem cacheGet_miss {c : ConnCache} {key : ConnKey}
    (args : List String) (h : lookupConn key c.entries = none) :
    cacheGet c key args =
      ((c.nextId, args),
        { entries := (key, (c.nextId, args)) :: c.entries,
          nextId := c.nextId + 1,
          ctorCalls := c.ctorCalls + 1 }) := by
  unfold cacheGet; rw [h]

theorem lookupConn_id_lt {c : ConnCache} (hWF : CacheWF c) {key : ConnKey}
    {conn : Conn} (h : lookupConn key c.entries = some conn) :
    conn.1 < c.nextId :=
  hWF.1 _ (lookupConn_mem h)

theorem lookupConn_distinct_keys {c : ConnCache} (hWF : CacheWF c)
    {k1 k2 : ConnKey} {conn1 conn2 : Conn}
    (h1 : lookupConn k1 c.entries = some conn1)
    (h2 : lookupConn k2 c.entries = some conn2) (hne : k1 ≠ k2) :
    conn1 ≠ conn2 := by
  intro heq
  subst heq
  have hmm := List.inj_on_of_nodup_map hWF.2 (lookupConn_mem h1)
    (lookupConn_mem h2) rfl
  exact hne (congrArg Prod.fst hmm)

theorem cacheGet_preserves_WF (c : ConnCache) (key : ConnKey)
    (args : List String) (hWF : CacheWF c) :
    CacheWF (cacheGet c key args).2 := by
  cases h : lookupConn key c.entries with
  | some conn => rw [cacheGet_hit args h]; exact hWF
  | none =>
    rw [cacheGet_miss args h]
    refine ⟨?_, ?_⟩
    · intro kv hkv
      rcases List.mem_cons.mp hkv with h1 | h1
      · subst h1; exact Nat.lt_succ_self _
      · exact Nat.lt_succ_of_lt (hWF.1 kv h1)
    · simp only [List.map_cons, List.nodup_cons]
      refine ⟨?_, hWF.2⟩
      intro hmem
      obtain ⟨kv, hkv, hid⟩ := List.mem_map.mp hmem
      have hlt := hWF.1 kv hkv
      rw [hid] at hlt
      exact Nat.lt_irrefl _ hlt

theorem lookupConn_after_get (c : ConnCache) (key : ConnKey)
    (args : List String) :
    lookupConn key (cacheGet c key args).2.entries =
      some (cacheGet c key args).1 := by
  cases h : lookupConn key c.entries with
  | some conn => rw [cacheGet_hit args h]; exact h
  | none => rw [cacheGet_miss args h]; simp [lookupConn]

/-- Claim C1: the connection cache memoizes by (current remote host, target
endpoint) key: a hit returns the cached connection unchanged with the
constructor args ignored and no constructor call; a miss invokes the
constructor exactly once, inserts the new connection under the key and
returns it; a second call with an equal key returns the identical instance
with no further construction; and calls with distinct keys never return the
same instance. -/
theorem connection_cache_memoization (c : ConnCache) (hWF : CacheWF c) :
    (∀ key args conn, lookupConn key c.entries = some conn →
      cacheGet c key args = (conn, c)) ∧
    (∀ key args, lookupConn key c.entries = none →
      (cacheGet c key args).2.ctorCalls = c.ctorCalls + 1 ∧
      lookupConn key (cacheGet c key args).2.entries =
        some (cacheGet c key args).1) ∧
    (∀ key args args',
      cacheGet (cacheGet c key args).2 key args' =
        ((cacheGet c key args).1, (cacheGet c key args).2)) ∧
    (∀ k1 k2 args1 args2, k1 ≠ k2 →
      (cacheGet c k1 args1).1 ≠
        (cacheGet (cacheGet c k1 args1).2 k2 args2).1) := by
  refine ⟨?_, ?_, ?_, ?_⟩
  · intro key args conn h
    exact cacheGet_hit args h
  · intro key args h
    refine ⟨?_, lookupConn_after_get c key args⟩
    rw [cacheGet_miss args h]
  · intro key args args'
    have hl := lookupConn_after_get c key args
    rw [cacheGet_hit args' hl]
  · intro k1 k2 args1 args2 hne
    cases h1 : lookupConn k1 c.entries with
    | some conn1 =>
      rw [cacheGet_hit args1 h1]
      cases h2 : lookupConn k2 c.entries with
      | some conn2 =>
        rw [cacheGet_hit args2 h2]
        exact lookupConn_distinct_keys hWF h1 h2 hne
      | none =>
        rw [cacheGet_miss args2 h2]
        intro heq
        have hlt := lookupConn_id_lt hWF h1
        have hid : conn1.1 = c.nextId := congrArg Prod.fst heq
        rw [hid] at hlt
        exact Nat.lt_irrefl _ hlt
    | none =>
      rw [cacheGet_miss args1 h1]
      have hskip : lookupConn k2
          ((k1, ((c.nextId : Nat), args1)) :: c.entries) =
          lookupConn k2 c.entries := by
        simp [lookupConn, hne]
      cases h2 : lookupConn k2 c.entries with
      | some conn2 =>
        rw [cacheGet_hit args2 (hskip.trans h2)]
        intro heq
        have hlt := lookupConn_id_lt hWF h2
        have hid : c.nextId = conn2.1 := congrArg Prod.fst heq
        rw [← hid] at hlt
        exact Nat.lt_irrefl _ hlt
      | none =>
        rw [cacheGet_miss args2 (hskip.trans h2)]
        intro heq
        have hid : c.nextId = c.nextId + 1 := congrArg Prod.fst heq
        exact Nat.succ_ne_self _ hid.symm

/-- Claim C1 witness: from the empty cache, requests under two distinct keys
return distinct instances, and a repeated request returns the identical
instance. -/
theorem connection_cache_memoization_witness :
    (cacheGet emptyCache (some "h1", some "u1") ["a"]).1 ≠
      (cacheGet (cacheGet emptyCache (some "h1", some "u1") ["a"]).2
        (some "h2", some "u1") ["b"]).1 ∧
    cacheGet (cacheGet emptyCache (some "h1", some "u1") ["a"]).2
        (some "h1", some "u1") ["c"] =
      ((cacheGet emptyCache (some "h1", some "u1") ["a"]).1,
        (cacheGet emptyCache (some "h1", some "u1") ["a"]).2) := by
  have hWF : CacheWF emptyCache := by
    constructor
    · intro kv hkv; simp [emptyCache] at hkv
    · simp [emptyCache]
  have h := connection_cache_memoization emptyCache hWF
  exact ⟨h.2.2.2 (some "h1", some "u1") (some "h2", some "u1") ["a"] ["b"]
      (by simp),
    h.2.2.1 (some "h1", some "u1") ["a"] ["c"]⟩

/-! ### DockerFabricClient.close (apiclient.py lines 112-120)

`close` runs `super().close()` in a `try` block and, in the `finally` block,
closes the owned tunnel when one exists.  Python `try/finally` semantics:
when the `finally` block raises, its exception replaces the body's. -/

/-- Python `try A finally B` at the level of raised exceptions: the `finally`
block's exception, when present, replaces the body's. -/
def tryFinallyErr (bodyErr finErr : Option Nat) : Option Nat :=
  match finErr with
  | some e => some e
  | none => bodyErr

/-- Observable outcome of one `close()` call. -/
structure CloseOutcome where
  raised : Option Nat
  tunnelAttempted : Bool
deriving DecidableEq, Repr

/-- Embedding of `DockerFabricClient.close` (apiclient.py lines 112-120) at
the level of raised exceptions: `superErr` is the exception raised by the
superclass close (if any), `tunnelErr` the one raised by
`self._tunnel.close()` (if any); the tunnel close runs in the `finally` block
exactly when a tunnel is owned. -/
def close_outcome (tunnel : Option Tunnel) (superErr tunnelErr : Option Nat) :
    CloseOutcome :=
  match tunnel with
  | some _ =>
    { raised := tryFinallyErr superErr tunnelErr, tunnelAttempted := true }
  | none => { raised := superErr, tunnelAttempted := false }

/-- Claim C5 counterexample: when both the connection-level close and the
tunnel-level close raise (here exceptions 1 and 2), the surfaced exception is
the TUNNEL-level one: a Python `finally` block's exception replaces the `try`
body's, so the claim that the connection-level error is surfaced fails. -/
theorem close_error_precedence_counterexample :
    (close_outcome (some (Tunnel.socat "h" 2375)) (some 1) (some 2)).raised =
      some 2 ∧ some (2 : Nat) ≠ some (1 : Nat) := by
  exact ⟨rfl, by decide⟩

/-- Claim C5 (amended): `close()` always attempts to release the owned tunnel
even when the connection-level close raises; when the tunnel close succeeds
the connection-level error (if any) is surfaced; but when the tunnel close
also fails, the tunnel-level error is the one surfaced, replacing the
connection-level one. -/
theorem close_always_releases_tunnel (t : Tunnel)
    (superErr tunnelErr : Option Nat) :
    (close_outcome (some t) superErr tunnelErr).tunnelAttempted = true ∧
    (tunnelErr = none →
      (close_outcome (some t) superErr tunnelErr).raised = superErr) ∧
    (∀ e2, tunnelErr = some e2 →
      (close_outcome (some t) superErr tunnelErr).raised = some e2) := by
  refine ⟨rfl, fun h => ?_, fun e2 h => ?_⟩
  · simp [close_outcome, tryFinallyErr, h]
  · simp [close_outcome, tryFinallyErr, h]

/-- Claim C5 witness: with a tunnel owned and only the connection-level close
failing with exception 7, the tunnel release is attempted and exception 7 is
surfaced. -/
theorem close_always_releases_tunnel_witness :
    (close_outcome (some (Tunnel.socat "h" 2375)) (some 7) none).tunnelAttempted
      = true ∧
    (close_outcome (some (Tunnel.socat "h" 2375)) (some 7) none).raised =
      some 7 := by
  have h := close_always_releases_tunnel (Tunnel.socat "h" 2375) (some 7) none
  exact ⟨h.1, h.2.1 rfl⟩

/-- State of a Remote Client and its optional tunnel across close calls.
`hasTunnel` is fixed at construction (`_tunnel` is never reset by `close`). -/
structure ClientState where
  hasTunnel : Bool
  connOpen : Bool
  tunnelOpen : Bool
deriving DecidableEq, Repr

/-- Modelled from the spec: closing the underlying API connection (the
external client library the call on line 117 delegates to) marks the
connection closed; closing an already-closed connection is a no-op that
raises nothing. -/
def superCloseStep (s : ClientState) : ClientState := { s with connOpen := false }

/-- Modelled from the spec: `tunnel.close()` (`dockerfabric/tunnel.py` and
`dockerfabric/socat.py`, not in the source tree) releases the tunnel's
resources; closing an already-closed tunnel is a no-op that raises nothing
(spec: double-close is idempotent, and once `close()` returns the tunnel's
resources are released). -/
def tunnelCloseStep (s : ClientState) : ClientState := { s with tunnelOpen := false }

/-- Embedding of `DockerFabricClient.close` (apiclient.py lines 112-120) at
the state level: the superclass close, then — in the `finally` block — the
tunnel close when a tunnel is owned; a second call repeats both steps since
`_tunnel` is never cleared. -/
def client_close (s : ClientState) : ClientState :=
  let s1 := superCloseStep s
  if s1.hasTunnel then tunnelCloseStep s1 else s1

/-- Claim C6: calling `close()` twice has the same externally observable
effect as calling it once — the second call changes nothing (and, per the
modelled collaborators, raises nothing). -/
theorem close_idempotent (s : ClientState) :
    client_close (client_close s) = client_close s := by
  unfold client_close superCloseStep tunnelCloseStep
  by_cases h : s.hasTunnel = true <;> simp [h]

/-! ### ContainerFabric.from_env (apiclient.py lines 300-336)

The loop (lines 320-334) walks the container maps, collects for each map the
set of referenced client names, and materializes every name not yet in
`current_clients` through `docker_fabric` — the process-wide connection cache
— after switching `env.host_string` to the client's `fabric_host`. -/

/-- Generic association-list lookup keyed by a string (Python `dict.get`). -/
def assoc {β : Type} (name : String) : List (String × β) → Option β
  | [] => none
  | kv :: rest => if kv.1 = name then some kv.2 else assoc name rest

/-- A client configuration as `from_env` consumes it: the `fabric_host`
binding read on line 330 (`none` models an absent key) and the constructor
kwargs produced by `get_init_kwargs()` on line 334, kept opaque. -/
structure ClientConfig where
  fabric_host : Option String
  kwargs : List String
deriving DecidableEq, Repr

/-- A container map as `from_env` reads it (lines 320-324): its name, its own
`clients` declaration, and each contained configuration's declared client
list (`c_config.clients`). -/
structure ContainerMap where
  name : String
  clients : List String
  configs : List (String × List String)
deriving DecidableEq, Repr

/-- The client names a map references (lines 321-324): the map's own clients
plus each configuration's clients when the latter list is truthy, i.e.
nonempty (`if c_config.clients:`). -/
def referencedClients (m : ContainerMap) : List String :=
  m.clients ++ (m.configs.map (fun p => if p.2 ≠ [] then p.2 else [])).flatten

/-- The loop on line 325 runs over `set(...)`.  CPython guarantees only that
set iteration enumerates each distinct element exactly once: the order is a
property of the hash table, not of declaration order.  A set-iteration
function is therefore modelled as any function producing a permutation of the
distinct elements (`dedup` keeps the first occurrence of each). -/
def ValidSetIter (f : List String → List String) : Prop :=
  ∀ xs, (f xs).Perm xs.dedup

/-- A set-iteration function that enumerates the distinct elements in
reverse; used to exhibit that iteration order need not be declaration
order. -/
def revIter : List String → List String := fun xs => xs.dedup.reverse

theorem revIter_valid : ValidSetIter revIter := fun xs => (xs.dedup).reverse_perm

/-- A set-iteration function keeping first-occurrence order. -/
def dedupIter : List String → List String := fun xs => xs.dedup

theorem dedupIter_valid : ValidSetIter dedupIter := fun _ => List.Perm.refl _

/-- Bootstrap state: the `current_clients` dict built by this `from_env`
invocation (lines 318 and 334), the process-wide connection cache behind
`docker_fabric`, and — as instrumentation — the client names for which
`docker_fabric` was invoked, in call order. -/
structure BootState where
  current_clients : List (String × Conn)
  cache : ConnCache
  fabricCalls : List String
deriving DecidableEq, Repr

/-- The loop body (lines 326-334) for one referenced client name: a name
already in `current_clients` is skipped; an unconfigured name raises
`ValueError` (line 329); a configuration whose `fabric_host` is absent or
empty raises `ValueError` (line 332) before any connection attempt;
otherwise, under `settings(host_string=client_host)`, `docker_fabric` is
invoked — the connection cache keyed by `(client_host,
env.docker_base_url)` — and the result recorded under the name. -/
def processClient (e : PyEnv) (all_configs : List (String × ClientConfig))
    (mapName : String) (st : BootState) (map_client : String) :
    Except String BootState :=
  if (assoc map_client st.current_clients).isSome then .ok st
  else
    match assoc map_client all_configs with
    | none =>
      .error ("Client '" ++ map_client ++ "' used in map '" ++ mapName ++
        "' not configured.")
    | some client_config =>
      match client_config.fabric_host with
      | none =>
        .error ("Client '" ++ map_client ++
          "' is configured, but has no 'fabric_host' definition.")
      | some client_host =>
        if client_host = "" then
          .error ("Client '" ++ map_client ++
            "' is configured, but has no 'fabric_host' definition.")
        else
          .ok { current_clients := st.current_clients ++
                  [(map_client, (cacheGet st.cache
                    (some client_host, e.docker_base_url)
                    client_config.kwargs).1)],
                cache := (cacheGet st.cache
                  (some client_host, e.docker_base_url)
                  client_config.kwargs).2,
                fabricCalls := st.fabricCalls ++ [map_client] }

/-- The inner loop (line 325) over one map's referenced client names; the
first `ValueError` propagates, leaving the state reached so far. -/
def runClients (e : PyEnv) (all_configs : List (String × ClientConfig))
    (mapName : String) : BootState → List String → BootState × Option String
  | st, [] => (st, none)
  | st, n :: rest =>
    match processClient e all_configs mapName st n with
    | .error msg => (st, some msg)
    | .ok st' => runClients e all_configs mapName st' rest

/-- The outer loop (line 320) over the container maps. -/
def runMaps (e : PyEnv) (all_configs : List (String × ClientConfig))
    (setIter : List String → List String) :
    BootState → List ContainerMap → BootState × Option String
  | st, [] => (st, none)
  | st, m :: rest =>
    match runClients e all_configs m.name st (setIter (referencedClients m)) with
    | (st', none) => runMaps e all_configs setIter st' rest
    | (st', some msg) => (st', some msg)

/-- Embedding of `ContainerFabric.from_env` (apiclient.py lines 300-336):
starts with a fresh empty `current_clients` dict, inherits the process-wide
connection cache, and processes the maps; the state at the first error (if
any) is returned alongside the error, since the raise does not undo cache
insertions. -/
def from_env (e : PyEnv) (all_configs : List (String × ClientConfig))
    (setIter : List String → List String) (maps : List ContainerMap)
    (cache0 : ConnCache) : BootState × Option String :=
  runMaps e all_configs setIter ⟨[], cache0, []⟩ maps

/-! ### Bootstrap lemmas -/

theorem assoc_mem {β : Type} {name : String} {l : List (String × β)} {v : β}
    (h : assoc name l = some v) : (name, v) ∈ l := by
  induction l with
  | nil => simp [assoc] at h
  | cons kv rest ih =>
    unfold assoc at h
    by_cases hk : kv.1 = name
    · rw [if_pos hk] at h
      obtain ⟨k, w⟩ := kv
      simp only [Option.some.injEq] at h
      subst h
      simp only at hk
      subst hk
      exact List.mem_cons_self _ _
    · rw [if_neg hk] at h
      exact List.mem_cons_of_mem _ (ih h)

theorem mem_assoc_isSome {β : Type} {name : String} {l : List (String × β)}
    {v : β} (h : (name, v) ∈ l) : (assoc name l).isSome := by
  induction l with
  | nil => simp at h
  | cons kv rest ih =>
    unfold assoc
    by_cases hk : kv.1 = name
    · rw [if_pos hk]; rfl
    · rw [if_neg hk]
      rcases List.mem_cons.mp h with h1 | h1
      · subst h1; simp at hk
      · exact ih h1

theorem assoc_append_left {β : Type} {name : String} {l1 : List (String × β)}
    {v : β} (l2 : List (String × β)) (h : assoc name l1 = some v) :
    assoc name (l1 ++ l2) = some v := by
  induction l1 with
  | nil => simp [assoc] at h
  | cons kv rest ih =>
    rw [List.cons_append]
    simp only [assoc] at h ⊢
    by_cases hk : kv.1 = name
    · rw [if_pos hk] at h ⊢; exact h
    · rw [if_neg hk] at h ⊢; exact ih h

theorem assoc_append_singleton {β : Type} (name n : String)
    (l : List (String × β)) (c : β) :
    assoc name (l ++ [(n, c)]) =
      match assoc name l with
      | some v => some v
      | none => if n = name then some c else none := by
  induction l with
  | nil => simp [assoc]
  | cons kv rest ih =>
    rw [List.cons_append]
    by_cases hk : kv.1 = name
    · simp [assoc, hk]
    · simp [assoc, hk, ih]

theorem cacheGet_entries_mono {c : ConnCache} (key : ConnKey)
    (args : List String) {kv : ConnKey × Conn} (h : kv ∈ c.entries) :
    kv ∈ (cacheGet c key args).2.entries := by
  cases hl : lookupConn key c.entries with
  | some conn => rw [cacheGet_hit args hl]; exact h
  | none => rw [cacheGet_miss args hl]; exact List.mem_cons_of_mem _ h

/-- Exhaustive description of the successful outcomes of the loop body: the
name was already materialized and nothing changed, or it was materialized now
through `docker_fabric`. -/
theorem processClient_ok_cases {e : PyEnv}
    {all_configs : List (String × ClientConfig)} {mapName : String}
    {st : BootState} {n : String} {st2 : BootState}
    (h : processClient e all_configs mapName st n = .ok st2) :
    (st2 = st ∧ (assoc n st.current_clients).isSome) ∨
    (assoc n st.current_clients = none ∧
      ∃ cfg host, assoc n all_configs = some cfg ∧
        cfg.fabric_host = some host ∧ host ≠ "" ∧
        st2 = { current_clients := st.current_clients ++
                  [(n, (cacheGet st.cache (some host, e.docker_base_url)
                    cfg.kwargs).1)],
                cache := (cacheGet st.cache (some host, e.docker_base_url)
                  cfg.kwargs).2,
                fabricCalls := st.fabricCalls ++ [n] }) := by
  unfold processClient at h
  by_cases hskip : (assoc n st.current_clients).isSome
  · rw [if_pos hskip] at h
    injection h with h
    exact Or.inl ⟨h.symm, hskip⟩
  · rw [if_neg hskip] at h
    cases hc : assoc n all_configs with
    | none =>
      simp only [hc] at h
      exact Except.noConfusion h
    | some cfg =>
      simp only [hc] at h
      cases hh : cfg.fabric_host with
      | none =>
        simp only [hh] at h
        exact Except.noConfusion h
      | some host =>
        simp only [hh] at h
        by_cases hhe : host = ""
        · rw [if_pos hhe] at h; simp at h
        · rw [if_neg hhe] at h
          injection h with h
          exact Or.inr ⟨Option.not_isSome_iff_eq_none.mp hskip,
            cfg, host, rfl, hh, hhe, h.symm⟩

/-- After a successful loop body the processed name is materialized. -/
theorem processClient_materializes {e : PyEnv}
    {all_configs : List (String × ClientConfig)} {mapName : String}
    {st : BootState} {n : String} {st2 : BootState}
    (h : processClient e all_configs mapName st n = .ok st2) :
    (assoc n st2.current_clients).isSome := by
  rcases processClient_ok_cases h with ⟨heq, hs⟩ | ⟨_, cfg, host, _, _, _, heq⟩
  · rw [heq]; exact hs
  · rw [heq]
    simp only
    rw [assoc_append_singleton]
    cases ha : assoc n st.current_clients with
    | some v => rfl
    | none => simp

/-- A successful loop body only extends the state: nothing is removed from
the client dict, the connection cache, or the call log. -/
theorem processClient_mono {e : PyEnv}
    {all_configs : List (String × ClientConfig)} {mapName : String}
    {st : BootState} {n : String} {st2 : BootState}
    (h : processClient e all_configs mapName st n = .ok st2) :
    (∀ kv ∈ st.current_clients, kv ∈ st2.current_clients) ∧
    (∀ kv ∈ st.cache.entries, kv ∈ st2.cache.entries) ∧
    (∀ x ∈ st.fabricCalls, x ∈ st2.fabricCalls) := by
  rcases processClient_ok_cases h with ⟨heq, _⟩ | ⟨_, cfg, host, _, _, _, heq⟩
  · subst heq; exact ⟨fun _ h => h, fun _ h => h, fun _ h => h⟩
  · subst heq
    refine ⟨fun kv hkv => List.mem_append_left _ hkv,
      fun kv hkv => ?_, fun x hx => List.mem_append_left _ hx⟩
    exact cacheGet_entries_mono _ _ hkv

theorem runClients_mono (e : PyEnv)
    (all_configs : List (String × ClientConfig)) (mapName : String)
    (names : List String) :
    ∀ st st2 r, runClients e all_configs mapName st names = (st2, r) →
      (∀ kv ∈ st.current_clients, kv ∈ st2.current_clients) ∧
      (∀ kv ∈ st.cache.entries, kv ∈ st2.cache.entries) ∧
      (∀ x ∈ st.fabricCalls, x ∈ st2.fabricCalls) := by
  induction names with
  | nil =>
    intro st st2 r h
    unfold runClients at h
    injection h with h1 h2
    subst h1
    exact ⟨fun _ h => h, fun _ h => h, fun _ h => h⟩
  | cons n rest ih =>
    intro st st2 r h
    unfold runClients at h
    cases hp : processClient e all_configs mapName st n with
    | error msg =>
      rw [hp] at h
      injection h with h1 h2
      subst h1
      exact ⟨fun _ h => h, fun _ h => h, fun _ h => h⟩
    | ok st' =>
      rw [hp] at h
      obtain ⟨m1, m2, m3⟩ := processClient_mono hp
      obtain ⟨r1, r2, r3⟩ := ih st' st2 r h
      exact ⟨fun kv hkv => r1 kv (m1 kv hkv), fun kv hkv => r2 kv (m2 kv hkv),
        fun x hx => r3 x (m3 x hx)⟩

theorem runMaps_mono (e : PyEnv)
    (all_configs : List (String × ClientConfig))
    (setIter : List String → List String) (maps : List ContainerMap) :
    ∀ st st2 r, runMaps e all_configs setIter st maps = (st2, r) →
      (∀ kv ∈ st.current_clients, kv ∈ st2.current_clients) ∧
      (∀ kv ∈ st.cache.entries, kv ∈ st2.cache.entries) ∧
      (∀ x ∈ st.fabricCalls, x ∈ st2.fabricCalls) := by
  induction maps with
  | nil =>
    intro st st2 r h
    unfold runMaps at h
    injection h with h1 h2
    subst h1
    exact ⟨fun _ h => h, fun _ h => h, fun _ h => h⟩
  | cons m rest ih =>
    intro st st2 r h
    unfold runMaps at h
    cases hrc : runClients e all_configs m.name st
        (setIter (referencedClients m)) with
    | mk st' r' =>
      rw [hrc] at h
      obtain ⟨m1, m2, m3⟩ := runClients_mono e all_configs m.name _ st st' r' hrc
      cases r' with
      | none =>
        obtain ⟨r1, r2, r3⟩ := ih st' st2 r h
        exact ⟨fun kv hkv => r1 kv (m1 kv hkv),
          fun kv hkv => r2 kv (m2 kv hkv), fun x hx => r3 x (m3 x hx)⟩
      | some msg =>
        injection h with h1 h2
        subst h1
        exact ⟨m1, m2, m3⟩

/-- The invariant tying the call log to the client dict: `docker_fabric` was
invoked at most once per name, and exactly for the materialized names. -/
def BootInv (st : BootState) : Prop :=
  st.fabricCalls.Nodup ∧
  ∀ x, x ∈ st.fabricCalls ↔ (assoc x st.current_clients).isSome = true

theorem processClient_inv {e : PyEnv}
    {all_configs : List (String × ClientConfig)} {mapName : String}
    {st : BootState} {n : String} {st2 : BootState}
    (hInv : BootInv st)
    (h : processClient e all_configs mapName st n = .ok st2) :
    BootInv st2 := by
  rcases processClient_ok_cases h with ⟨heq, _⟩ | ⟨hnone, cfg, host, _, _, _, heq⟩
  · subst heq; exact hInv
  · subst heq
    have hnotin : n ∉ st.fabricCalls := by
      intro hmem
      rw [(hInv.2 n), hnone] at hmem
      exact Bool.false_ne_true hmem
    constructor
    · exact ((List.perm_append_singleton n st.fabricCalls).nodup_iff).mpr
        (List.nodup_cons.mpr ⟨hnotin, hInv.1⟩)
    · intro x
      simp only
      rw [assoc_append_singleton]
      constructor
      · intro hx
        rcases List.mem_append.mp hx with hx | hx
        · have := (hInv.2 x).mp hx
          cases ha : assoc x st.current_clients with
          | none => rw [ha] at this; exact absurd this (by simp)
          | some v => simp
        · rcases List.mem_singleton.mp hx with rfl
          rw [hnone]
          simp
      · intro hx
        cases ha : assoc x st.current_clients with
        | none =>
          rw [ha] at hx
          simp only at hx
          by_cases hnx : n = x
          · subst hnx; exact List.mem_append_right _ (List.mem_singleton.mpr rfl)
          · rw [if_neg hnx] at hx; exact absurd hx (by simp)
        | some v =>
          exact List.mem_append_left _ ((hInv.2 x).mpr (by rw [ha]; rfl))

theorem runClients_inv (e : PyEnv)
    (all_configs : List (String × ClientConfig)) (mapName : String)
    (names : List String) :
    ∀ st st2 r, BootInv st →
      runClients e all_configs mapName st names = (st2, r) → BootInv st2 := by
  induction names with
  | nil =>
    intro st st2 r hInv h
    unfold runClients at h
    injection h with h1 h2
    subst h1
    exact hInv
  | cons n rest ih =>
    intro st st2 r hInv h
    unfold runClients at h
    cases hp : processClient e all_configs mapName st n with
    | error msg =>
      rw [hp] at h
      injection h with h1 h2
      subst h1
      exact hInv
    | ok st' =>
      rw [hp] at h
      exact ih st' st2 r (processClient_inv hInv hp) h

theorem runMaps_inv (e : PyEnv) (all_configs : List (String × ClientConfig))
    (setIter : List String → List String) (maps : List ContainerMap) :
    ∀ st st2 r, BootInv st →
      runMaps e all_configs setIter st maps = (st2, r) → BootInv st2 := by
  induction maps with
  | nil =>
    intro st st2 r hInv h
    unfold runMaps at h
    injection h with h1 h2
    subst h1
    exact hInv
  | cons m rest ih =>
    intro st st2 r hInv h
    unfold runMaps at h
    cases hrc : runClients e all_configs m.name st
        (setIter (referencedClients m)) with
    | mk st' r' =>
      rw [hrc] at h
      have hInv' := runClients_inv e all_configs m.name _ st st' r' hInv hrc
      cases r' with
      | none => exact ih st' st2 r hInv' h
      | some msg =>
        injection h with h1 h2
        subst h1
        exact hInv'

/-- Materialization is preserved by state extension. -/
theorem isSome_assoc_of_mono {st st2 : BootState} {x : String}
    (hmono : ∀ kv ∈ st.current_clients, kv ∈ st2.current_clients)
    (h : (assoc x st.current_clients).isSome = true) :
    (assoc x st2.current_clients).isSome = true := by
  cases ha : assoc x st.current_clients with
  | none => rw [ha] at h; exact absurd h (by simp)
  | some v => exact mem_assoc_isSome (hmono _ (assoc_mem ha))

/-- On success, every name in the processed list ends up materialized. -/
theorem runClients_complete (e : PyEnv)
    (all_configs : List (String × ClientConfig)) (mapName : String)
    (names : List String) :
    ∀ st st2, runClients e all_configs mapName st names = (st2, none) →
      ∀ x ∈ names, (assoc x st2.current_clients).isSome = true := by
  induction names with
  | nil => intro st st2 h x hx; simp at hx
  | cons n rest ih =>
    intro st st2 h x hx
    unfold runClients at h
    cases hp : processClient e all_configs mapName st n with
    | error msg =>
      rw [hp] at h
      injection h with h1 h2
      exact absurd h2.symm (by simp)
    | ok st' =>
      rw [hp] at h
      rcases List.mem_cons.mp hx with rfl | hx
      · exact isSome_assoc_of_mono (runClients_mono e all_configs mapName rest
          st' st2 none h).1 (processClient_materializes hp)
      · exact ih st' st2 h x hx

/-- On success, every referenced name of every map ends up materialized. -/
theorem runMaps_complete (e : PyEnv)
    (all_configs : List (String × ClientConfig))
    (setIter : List String → List String) (maps : List ContainerMap) :
    ∀ st st2, runMaps e all_configs setIter st maps = (st2, none) →
      ∀ m ∈ maps, ∀ x ∈ setIter (referencedClients m),
        (assoc x st2.current_clients).isSome = true := by
  induction maps with
  | nil => intro st st2 h m hm; simp at hm
  | cons m0 rest ih =>
    intro st st2 h m hm x hx
    unfold runMaps at h
    cases hrc : runClients e all_configs m0.name st
        (setIter (referencedClients m0)) with
    | mk st' r' =>
      rw [hrc] at h
      cases r' with
      | none =>
        rcases List.mem_cons.mp hm with rfl | hm
        · exact isSome_assoc_of_mono
            (runMaps_mono e all_configs setIter rest st' st2 none h).1
            (runClients_complete e all_configs m.name _ st st' hrc x hx)
        · exact ih st' st2 h m hm x hx
      | some msg =>
        injection h with h1 h2
        exact absurd h2.symm (by simp)

/-- Every `docker_fabric` call made by the inner loop is for a name of the
processed list (or was already in the log). -/
theorem runClients_sound (e : PyEnv)
    (all_configs : List (String × ClientConfig)) (mapName : String)
    (names : List String) :
    ∀ st st2 r, runClients e all_configs mapName st names = (st2, r) →
      ∀ x ∈ st2.fabricCalls, x ∈ st.fabricCalls ∨ x ∈ names := by
  induction names with
  | nil =>
    intro st st2 r h x hx
    unfold runClients at h
    injection h with h1 h2
    subst h1
    exact Or.inl hx
  | cons n rest ih =>
    intro st st2 r h x hx
    unfold runClients at h
    cases hp : processClient e all_configs mapName st n with
    | error msg =>
      rw [hp] at h
      injection h with h1 h2
      subst h1
      exact Or.inl hx
    | ok st' =>
      rw [hp] at h
      rcases ih st' st2 r h x hx with hx' | hx'
      · rcases processClient_ok_cases hp with ⟨heq, _⟩ | ⟨_, cfg, host, _, _, _, heq⟩
        · subst heq; exact Or.inl hx'
        · subst heq
          simp only at hx'
          rcases List.mem_append.mp hx' with hx'' | hx''
          · exact Or.inl hx''
          · exact Or.inr (List.mem_cons.mpr (Or.inl (List.mem_singleton.mp hx'')))
      · exact Or.inr (List.mem_cons.mpr (Or.inr hx'))

/-- Every `docker_fabric` call made by the outer loop is for a referenced
name of one of the maps (or was already in the log). -/
theorem runMaps_sound (e : PyEnv)
    (all_configs : List (String × ClientConfig))
    (setIter : List String → List String) (maps : List ContainerMap) :
    ∀ st st2 r, runMaps e all_configs setIter st maps = (st2, r) →
      ∀ x ∈ st2.fabricCalls, x ∈ st.fabricCalls ∨
        ∃ m ∈ maps, x ∈ setIter (referencedClients m) := by
  induction maps with
  | nil =>
    intro st st2 r h x hx
    unfold runMaps at h
    injection h with h1 h2
    subst h1
    exact Or.inl hx
  | cons m0 rest ih =>
    intro st st2 r h x hx
    unfold runMaps at h
    cases hrc : runClients e all_configs m0.name st
        (setIter (referencedClients m0)) with
    | mk st' r' =>
      rw [hrc] at h
      cases r' with
      | none =>
        rcases ih st' st2 r h x hx with hx' | ⟨m, hm, hxm⟩
        · rcases runClients_sound e all_configs m0.name _ st st' none hrc x hx'
            with hx'' | hx''
          · exact Or.inl hx''
          · exact Or.inr ⟨m0, List.mem_cons_self _ _, hx''⟩
        · exact Or.inr ⟨m, List.mem_cons_of_mem _ hm, hxm⟩
      | some msg =>
        injection h with h1 h2
        subst h1
        rcases runClients_sound e all_configs m0.name _ st st' (some msg) hrc x hx
            with hx'' | hx''
        · exact Or.inl hx''
        · exact Or.inr ⟨m0, List.mem_cons_self _ _, hx''⟩

/-- Membership in a valid set iteration is membership in the original list. -/
theorem validSetIter_mem {f : List String → List String}
    (hf : ValidSetIter f) (xs : List String) (x : String) :
    x ∈ f xs ↔ x ∈ xs := by
  rw [(hf xs).mem_iff, List.mem_dedup]

/-- On a successful bootstrap from the initial state, the `docker_fabric`
call log is duplicate-free and holds exactly the referenced client names. -/
theorem from_env_success_spec {e : PyEnv}
    {all_configs : List (String × ClientConfig)}
    {setIter : List String → List String} {maps : List ContainerMap}
    {cache0 : ConnCache} {st' : BootState} (hIter : ValidSetIter setIter)
    (h : from_env e all_configs setIter maps cache0 = (st', none)) :
    st'.fabricCalls.Nodup ∧
    ∀ x, x ∈ st'.fabricCalls ↔ ∃ m ∈ maps, x ∈ referencedClients m := by
  have hInv0 : BootInv ⟨[], cache0, []⟩ := by
    constructor
    · exact List.nodup_nil
    · intro x
      simp [assoc]
  have hInv := runMaps_inv e all_configs setIter maps _ st' none hInv0 h
  refine ⟨hInv.1, fun x => ⟨?_, ?_⟩⟩
  · intro hx
    rcases runMaps_sound e all_configs setIter maps _ st' none h x hx with
        hx' | ⟨m, hm, hxm⟩
    · exact absurd hx' (by simp)
    · exact ⟨m, hm, (validSetIter_mem hIter _ x).mp hxm⟩
  · intro ⟨m, hm, hxm⟩
    have := runMaps_complete e all_configs setIter maps _ st' h m hm x
      ((validSetIter_mem hIter _ x).mpr hxm)
    exact (hInv.2 x).mpr this

/-! ### Concrete fixtures for witnesses and counterexamples -/

/-- An ambient env with a TCP endpoint configured. -/
def envX : PyEnv := ⟨some "ignored", some "tcp://h:2375", none, none⟩

/-- The state a fresh bootstrap starts from. -/
def st0Boot : BootState := ⟨[], emptyCache, []⟩

/-- One configured client named `good`. -/
def cfgsGood : List (String × ClientConfig) := [("good", ⟨some "hostG", []⟩)]

/-- One configured client named `prod-a`. -/
def cfgsProdA : List (String × ClientConfig) := [("prod-a", ⟨some "hostA", []⟩)]

/-- Two groupings both referencing `prod-a`. -/
def mapsProdA : List ContainerMap :=
  [⟨"m1", ["prod-a"], []⟩, ⟨"m2", ["prod-a"], []⟩]

/-- Clients `a` and `b`, both configured with hosts. -/
def cfgsAB : List (String × ClientConfig) :=
  [("a", ⟨some "hostA", []⟩), ("b", ⟨some "hostB", []⟩)]

/-- One grouping declaring clients in the order `b`, `a`. -/
def mapsBA : List ContainerMap := [⟨"m", ["b", "a"], []⟩]

/-- Claim C3: during bootstrap, a referenced client name with no
configuration entry raises the not-configured `ValueError`; a configuration
lacking a (truthy) `fabric_host` raises the missing-host `ValueError` before
any connection attempt for that client; and in either failure case the loop
stops with exactly the state reached after the previously processed names —
connections already established are not rolled back and remain in the result
state. -/
theorem bootstrap_configuration_error_handling :
    (∀ (e : PyEnv) (all_configs : List (String × ClientConfig))
        (mapName : String) (st : BootState) (n : String),
      assoc n st.current_clients = none →
      assoc n all_configs = none →
      processClient e all_configs mapName st n =
        .error ("Client '" ++ n ++ "' used in map '" ++ mapName ++
          "' not configured.")) ∧
    (∀ (e : PyEnv) (all_configs : List (String × ClientConfig))
        (mapName : String) (st : BootState) (n : String) (cfg : ClientConfig),
      assoc n st.current_clients = none →
      assoc n all_configs = some cfg →
      truthyStr cfg.fabric_host = false →
      processClient e all_configs mapName st n =
        .error ("Client '" ++ n ++
          "' is configured, but has no 'fabric_host' definition.")) ∧
    (∀ (e : PyEnv) (all_configs : List (String × ClientConfig))
        (mapName : String) (st : BootState) (ns1 : List String) (bad : String)
        (ns2 : List String) (st1 : BootState) (msg : String),
      runClients e all_configs mapName st ns1 = (st1, none) →
      processClient e all_configs mapName st1 bad = .error msg →
      runClients e all_configs mapName st (ns1 ++ bad :: ns2) =
        (st1, some msg)) := by
  refine ⟨?_, ?_, ?_⟩
  · intro e all_configs mapName st n h1 h2
    unfold processClient
    rw [if_neg (by simp [h1])]
    simp only [h2]
  · intro e all_configs mapName st n cfg h1 h2 h3
    unfold processClient
    rw [if_neg (by simp [h1])]
    simp only [h2]
    cases hh : cfg.fabric_host with
    | none => simp only [hh]
    | some s =>
      rw [hh] at h3
      unfold truthyStr at h3
      simp only [bne_eq_false_iff_eq] at h3
      simp only [hh]
      rw [if_pos h3]
  · intro e all_configs mapName st ns1 bad ns2 st1 msg hpre herr
    induction ns1 generalizing st with
    | nil =>
      unfold runClients at hpre
      injection hpre with hp1 hp2
      subst hp1
      rw [List.nil_append]
      unfold runClients
      rw [herr]
    | cons a rest ih =>
      unfold runClients at hpre
      cases hp : processClient e all_configs mapName st a with
      | error m =>
        rw [hp] at hpre
        injection hpre with hp1 hp2
        exact absurd hp2.symm (by simp)
      | ok st' =>
        rw [hp] at hpre
        rw [List.cons_append]
        unfold runClients
        rw [hp]
        exact ih st' hpre

/-- Claim C3 witness: bootstrapping names `good` then `missing` (the latter
unconfigured) raises the not-configured error, and the connection already
established for `good` remains in the surfaced result state. -/
theorem bootstrap_configuration_error_handling_witness :
    runClients envX cfgsGood "m" st0Boot ["good", "missing"] =
      ((runClients envX cfgsGood "m" st0Boot ["good"]).1,
        some ("Client 'missing' used in map 'm' not configured.")) ∧
    (assoc "good"
      (runClients envX cfgsGood "m" st0Boot ["good"]).1.current_clients).isSome
      = true := by
  have hpre : runClients envX cfgsGood "m" st0Boot ["good"] =
      ((runClients envX cfgsGood "m" st0Boot ["good"]).1, none) := by decide
  have herr : processClient envX cfgsGood "m"
      (runClients envX cfgsGood "m" st0Boot ["good"]).1 "missing" =
      .error ("Client 'missing' used in map 'm' not configured.") := by rfl
  have h := bootstrap_configuration_error_handling.2.2 envX cfgsGood "m"
    st0Boot ["good"] "missing" [] _ _ hpre herr
  exact ⟨h, by decide⟩

/-- Claim C4: a successful bootstrap materializes each referenced client name
at most once across all groupings — the `docker_fabric` call log is
duplicate-free, holds exactly the referenced names, and counts each
referenced name exactly once, even when a name is referenced by several
groupings or several times within one. -/
theorem bootstrap_materializes_each_client_once (e : PyEnv)
    (all_configs : List (String × ClientConfig))
    (setIter : List String → List String) (maps : List ContainerMap)
    (cache0 : ConnCache) (st' : BootState) (hIter : ValidSetIter setIter)
    (h : from_env e all_configs setIter maps cache0 = (st', none)) :
    st'.fabricCalls.Nodup ∧
    (∀ x, x ∈ st'.fabricCalls ↔ ∃ m ∈ maps, x ∈ referencedClients m) ∧
    (∀ x, (∃ m ∈ maps, x ∈ referencedClients m) →
      st'.fabricCalls.count x = 1) := by
  obtain ⟨h1, h2⟩ := from_env_success_spec hIter h
  refine ⟨h1, h2, fun x hx => ?_⟩
  have hmem := (h2 x).mpr hx
  exact List.count_eq_one_of_mem h1 hmem

/-- Claim C4 witness: two groupings both referencing `prod-a` produce exactly
one `docker_fabric` call for `prod-a`. -/
theorem bootstrap_materializes_each_client_once_witness :
    (from_env envX cfgsProdA dedupIter mapsProdA emptyCache).1.fabricCalls.count
      "prod-a" = 1 := by
  have h := bootstrap_materializes_each_client_once envX cfgsProdA dedupIter
    mapsProdA emptyCache
    (from_env envX cfgsProdA dedupIter mapsProdA emptyCache).1 dedupIter_valid
    (by decide)
  exact h.2.2 "prod-a" ⟨⟨"m1", ["prod-a"], []⟩, by decide, by decide⟩

/-- Claim C9 counterexample: the loop on line 325 iterates a Python `set`,
whose enumeration order is a hash-table property, not declaration order: with
a set iteration enumerating the distinct names in reverse (a valid set
enumeration — it is a permutation of the distinct elements), a grouping
declaring clients `b`, `a` establishes connections in the order `a`, `b`,
which differs from the declaration order `b`, `a`. -/
theorem bootstrap_declaration_order_counterexample :
    ValidSetIter revIter ∧
    referencedClients ⟨"m", ["b", "a"], []⟩ = ["b", "a"] ∧
    (from_env envX cfgsAB revIter mapsBA emptyCache).1.fabricCalls =
      ["a", "b"] ∧
    (["a", "b"] : List String) ≠ ["b", "a"] := by
  exact ⟨revIter_valid, by decide, by decide, by decide⟩

/-- Claim C9 (amended): groupings are processed in declaration order, but the
client names within a grouping are visited in the iteration order of a Python
set — deterministic for a fixed set-iteration behaviour (hence identical
across repeated bootstraps in one process) yet not necessarily declaration
order; the SET of clients materialized is independent of the iteration
order: two successful bootstraps of the same inputs under any two valid set
iterations establish connections for exactly the same client names. -/
theorem bootstrap_establishes_same_clients_any_order (e : PyEnv)
    (all_configs : List (String × ClientConfig))
    (f g : List String → List String) (maps : List ContainerMap)
    (cache0 : ConnCache) (st1 st2 : BootState)
    (hf : ValidSetIter f) (hg : ValidSetIter g)
    (h1 : from_env e all_configs f maps cache0 = (st1, none))
    (h2 : from_env e all_configs g maps cache0 = (st2, none)) :
    st1.fabricCalls.Perm st2.fabricCalls := by
  obtain ⟨n1, m1⟩ := from_env_success_spec hf h1
  obtain ⟨n2, m2⟩ := from_env_success_spec hg h2
  exact (List.perm_ext_iff_of_nodup n1 n2).mpr
    (fun a => (m1 a).trans ((m2 a).symm))

/-- Claim C9 witness: under first-occurrence order and reverse order the
bootstrap of the same inputs establishes the same set of connections. -/
theorem bootstrap_establishes_same_clients_any_order_witness :
    ((from_env envX cfgsAB dedupIter mapsBA emptyCache).1.fabricCalls).Perm
      ((from_env envX cfgsAB revIter mapsBA emptyCache).1.fabricCalls) := by
  exact bootstrap_establishes_same_clients_any_order envX cfgsAB dedupIter
    revIter mapsBA emptyCache _ _ dedupIter_valid revIter_valid
    (by decide) (by decide)

end DockerFabric
